import Mathlib

/-!
Shallow embedding of `src/app.py` (business-performance-tracker).

The program keeps two SQLite tables, `clients` and `services`
(`init_db`, lines 26-53), and manipulates them through the domain
functions `upsert_client`, `delete_client`, `add_service`,
`update_services_bulk`, `delete_service`,
`client_monthly_revenue_breakdown` and `totals_for_dashboard`
(lines 74-141).  We model a database state as explicit lists of rows,
SQLite REAL as `Rat`, the `is_active IN (0,1)` column as `Bool`, and a
failing write statement as `Except.error`.  The schema constraints of
`init_db` — `CHECK(status IN ('Active','Inactive','Prospect'))`,
`CHECK(monthly_cost >= 0)`, and the `ON DELETE CASCADE` foreign key
(with `PRAGMA foreign_keys = ON` from `get_conn`) — are embedded into
the write operations, since that is where SQLite enforces them:
a CHECK constraint is evaluated exactly on the rows an INSERT/UPDATE
statement actually writes, so an UPDATE matching zero rows raises no
error, and a failing statement writes nothing.
-/

/-- Row of the `clients` table (`init_db`, app.py lines 30-38). -/
structure Client where
  id : Nat
  name : String
  status : String
  notes : String
  created_at : String
deriving DecidableEq

/-- Row of the `services` table (`init_db`, app.py lines 40-50).
`monthly_cost REAL` is modelled as `Rat`, `is_active` (0/1) as `Bool`. -/
structure Service where
  id : Nat
  client_id : Nat
  service_name : String
  monthly_cost : Rat
  is_active : Bool
  created_at : String
deriving DecidableEq

/-- A database state: the two tables plus the AUTOINCREMENT counters
that assign fresh primary keys. -/
structure DB where
  clients : List Client
  services : List Service
  nextClientId : Nat
  nextServiceId : Nat
deriving DecidableEq

/-- The empty database produced by `init_db` on first run
(AUTOINCREMENT starts at 1). -/
def emptyDB : DB := ⟨[], [], 1, 1⟩

/-- Error raised by SQLite when a statement violates a constraint
(spec: StorageError). -/
inductive StorageError where
  | constraintViolation
deriving DecidableEq

deriving instance DecidableEq for Except

/-- Python's `str.strip()`: removes whitespace from both ends of a
string.  Implemented by structural recursion over the character list. -/
def pyStrip (s : String) : String :=
  ⟨(((s.data.dropWhile Char.isWhitespace).reverse).dropWhile
      Char.isWhitespace).reverse⟩

/-- The `CHECK(status IN ('Active','Inactive','Prospect'))` constraint
of the `clients` table (app.py line 34). -/
def validStatus (s : String) : Bool :=
  s == "Active" || s == "Inactive" || s == "Prospect"

/-- `upsert_client` (app.py lines 74-85): with no id, INSERTs a fresh
client (trimming `name` and `notes`, timestamp `now`); with an id,
UPDATEs `name`, `status`, `notes` of the rows matching that id.  The
status CHECK fires on every row actually written: on INSERT always, on
UPDATE only when at least one row matches the id. -/
def upsert_client (client_id : Option Nat) (name status notes now : String)
    (db : DB) : Except StorageError DB :=
  match client_id with
  | none =>
      if validStatus status then
        Except.ok { db with
          clients := db.clients ++
            [⟨db.nextClientId, pyStrip name, status, pyStrip notes, now⟩],
          nextClientId := db.nextClientId + 1 }
      else Except.error StorageError.constraintViolation
  | some cid =>
      if db.clients.any (fun c => c.id == cid) && !(validStatus status) then
        Except.error StorageError.constraintViolation
      else
        Except.ok { db with
          clients := db.clients.map (fun c =>
            if c.id == cid then
              { c with name := pyStrip name, status := status,
                       notes := pyStrip notes }
            else c) }

/-- `delete_client` (app.py lines 88-89): `DELETE FROM clients WHERE
id=?`.  With `PRAGMA foreign_keys = ON` and the `ON DELETE CASCADE`
foreign key (app.py line 48), deleting a client row also deletes the
service rows referencing it; if no client matches, nothing is deleted
and no cascade fires. -/
def delete_client (client_id : Nat) (db : DB) : DB :=
  if db.clients.any (fun c => c.id == client_id) then
    { db with
      clients := db.clients.filter (fun c => !(c.id == client_id)),
      services := db.services.filter (fun s => !(s.client_id == client_id)) }
  else db

/-- `add_service` (app.py lines 92-97): INSERT of a fresh service.
The INSERT fails on the `CHECK(monthly_cost >= 0)` constraint or on a
`client_id` that references no client (foreign key). -/
def add_service (client_id : Nat) (service_name : String)
    (monthly_cost : Rat) (is_active : Bool) (now : String)
    (db : DB) : Except StorageError DB :=
  if decide (monthly_cost < 0) then
    Except.error StorageError.constraintViolation
  else if !(db.clients.any (fun c => c.id == client_id)) then
    Except.error StorageError.constraintViolation
  else
    Except.ok { db with
      services := db.services ++
        [⟨db.nextServiceId, client_id, pyStrip service_name, monthly_cost,
          is_active, now⟩],
      nextServiceId := db.nextServiceId + 1 }

/-- One row of the data-editor frame handed to `update_services_bulk`
(app.py line 101: columns id, service_name, monthly_cost, is_active). -/
structure ServiceEdit where
  id : Nat
  service_name : String
  monthly_cost : Rat
  is_active : Bool
deriving DecidableEq

/-- One `UPDATE services SET ... WHERE id=?` statement of the loop in
`update_services_bulk` (app.py lines 104-108), applied to the
connection's working state.  The cost CHECK fires exactly when some
service row matches the id. -/
def applyEdit (db : DB) (e : ServiceEdit) : Except StorageError DB :=
  if db.services.any (fun s => s.id == e.id) && decide (e.monthly_cost < 0) then
    Except.error StorageError.constraintViolation
  else
    Except.ok { db with
      services := db.services.map (fun s =>
        if s.id == e.id then
          { s with service_name := pyStrip e.service_name,
                   monthly_cost := e.monthly_cost,
                   is_active := e.is_active }
        else s) }

/-- The statement loop of `update_services_bulk`: rows are executed one
at a time on a single connection; the first failing statement raises
and aborts the loop. -/
def runEdits (db : DB) : List ServiceEdit → Except StorageError DB
  | [] => Except.ok db
  | e :: rest =>
      match applyEdit db e with
      | Except.error err => Except.error err
      | Except.ok db' => runEdits db' rest

/-- `update_services_bulk` (app.py lines 100-110): one connection,
`cur.execute` per row, then a single `conn.commit()` after the loop.
An error result means the exception propagated before `conn.commit()`
ran, so nothing of the batch reaches the persisted database. -/
def update_services_bulk (edited : List ServiceEdit) (db : DB) :
    Except StorageError DB :=
  runEdits db edited

/-- The persisted (committed) state after a call to
`update_services_bulk`: on success the final working state is
committed; on failure the connection closes without `conn.commit()`,
so the open transaction rolls back and the stored state is unchanged. -/
def bulk_committed (edited : List ServiceEdit) (db : DB) : DB :=
  match update_services_bulk edited db with
  | Except.ok db' => db'
  | Except.error _ => db

/-- `delete_service` (app.py lines 113-114): `DELETE FROM services
WHERE id=?`. -/
def delete_service (service_id : Nat) (db : DB) : DB :=
  { db with services := db.services.filter (fun s => !(s.id == service_id)) }

/-- Outcome of submitting the client form in the UI. -/
inductive FormResult where
  | rejected
  | saved (db : DB)
  | storage_error (e : StorageError)
deriving DecidableEq

/-- The client-form submit handler (app.py lines 211-216): on submit it
shows an error and writes nothing when `name.strip()` is empty, and
only otherwise calls `upsert_client`. -/
def client_form_submit (selected_id : Option Nat)
    (name status notes now : String) (db : DB) : FormResult :=
  if pyStrip name == "" then FormResult.rejected
  else
    match upsert_client selected_id name status notes now db with
    | Except.ok db' => FormResult.saved db'
    | Except.error e => FormResult.storage_error e

/-- One user-triggered write operation of the application. -/
inductive Op where
  | upsert (client_id : Option Nat) (name status notes now : String)
  | delClient (id : Nat)
  | addSvc (client_id : Nat) (service_name : String) (monthly_cost : Rat)
      (is_active : Bool) (now : String)
  | bulk (edited : List ServiceEdit)
  | delSvc (id : Nat)

/-- The persisted database state after one operation: a failing write
statement commits nothing, so the stored state is unchanged on error. -/
def applyOp (op : Op) (db : DB) : DB :=
  match op with
  | Op.upsert cid n s t now =>
      match upsert_client cid n s t now db with
      | Except.ok db' => db'
      | Except.error _ => db
  | Op.delClient id => delete_client id db
  | Op.addSvc cid n c a now =>
      match add_service cid n c a now db with
      | Except.ok db' => db'
      | Except.error _ => db
  | Op.bulk es => bulk_committed es db
  | Op.delSvc id => delete_service id db

/-- Database states reachable from a fresh `init_db` database through
the application's write operations. -/
inductive Reachable : DB → Prop
  | init : Reachable emptyDB
  | step (op : Op) {db : DB} : Reachable db → Reachable (applyOp op db)

/-- One output row of `client_monthly_revenue_breakdown`
(app.py lines 120-124: columns client_id, name, status,
monthly_revenue). -/
structure BreakdownRow where
  client_id : Nat
  name : String
  status : String
  monthly_revenue : Rat
deriving DecidableEq

/-- The group produced for one client row by the query of
`client_monthly_revenue_breakdown`: the LEFT JOIN matches exactly the
services with `s.client_id = c.id`, and
`COALESCE(SUM(CASE WHEN s.is_active = 1 THEN s.monthly_cost ELSE 0 END), 0)`
sums `monthly_cost` over the active ones, counting 0 for inactive ones
and for clients with no services at all. -/
def rowFor (servs : List Service) (c : Client) : BreakdownRow :=
  { client_id := c.id, name := c.name, status := c.status,
    monthly_revenue :=
      ((servs.filter (fun s => s.client_id == c.id)).map
        (fun s => if s.is_active then s.monthly_cost else 0)).sum }

/-- The `ORDER BY c.status, c.name` comparison of the breakdown query. -/
def breakdownLE (a b : BreakdownRow) : Prop :=
  a.status < b.status ∨ (a.status = b.status ∧ a.name ≤ b.name)

instance : DecidableRel breakdownLE := fun a b => by
  unfold breakdownLE; infer_instance

/-- `client_monthly_revenue_breakdown` (app.py lines 117-130): the
query `SELECT c.id, c.name, c.status, COALESCE(SUM(...), 0) FROM
clients c LEFT JOIN services s ON s.client_id = c.id GROUP BY c.id,
c.name, c.status ORDER BY c.status, c.name`.  Since `c.id` is the
primary key, grouping by `(c.id, c.name, c.status)` yields one group
per client row. -/
def client_monthly_revenue_breakdown (db : DB) : List BreakdownRow :=
  List.insertionSort breakdownLE (db.clients.map (rowFor db.services))

/-- `totals_for_dashboard` (app.py lines 133-141): sums
`monthly_revenue` over the breakdown rows with status Active, Prospect
and Inactive respectively, and returns
`(active_mrr, prospect_mrr, active_mrr + prospect_mrr, inactive_mrr)`. -/
def totals_for_dashboard (db : DB) : Rat × Rat × Rat × Rat :=
  let df := client_monthly_revenue_breakdown db
  let active_mrr :=
    ((df.filter (fun r => r.status == "Active")).map
      BreakdownRow.monthly_revenue).sum
  let prospect_mrr :=
    ((df.filter (fun r => r.status == "Prospect")).map
      BreakdownRow.monthly_revenue).sum
  let inactive_mrr :=
    ((df.filter (fun r => r.status == "Inactive")).map
      BreakdownRow.monthly_revenue).sum
  (active_mrr, prospect_mrr, active_mrr + prospect_mrr, inactive_mrr)

/-- A concrete reachable state: client Acme (Active) with an active
Hosting service at 100 and an inactive Old Plan service at 50 —
the scenario of spec §8. -/
def dbAcme : DB :=
  applyOp (Op.addSvc 1 "Old Plan" 50 false "t2")
    (applyOp (Op.addSvc 1 "Hosting" 100 true "t1")
      (applyOp (Op.upsert none "Acme" "Active" "" "t0") emptyDB))

/-- Every service row has a non-negative monthly cost (the
`CHECK(monthly_cost >= 0)` column invariant). -/
def costsNonneg (db : DB) : Prop :=
  ∀ s ∈ db.services, 0 ≤ s.monthly_cost

/-- Every client row carries one of the three enumerated statuses (the
status CHECK column invariant). -/
def statusesValid (db : DB) : Prop :=
  ∀ c ∈ db.clients, validStatus c.status = true

theorem dbAcme_reachable : Reachable dbAcme :=
  Reachable.step _ (Reachable.step _ (Reachable.step _ Reachable.init))

theorem dbAcme_eq :
    dbAcme = ⟨[⟨1, "Acme", "Active", "", "t0"⟩],
      [⟨1, 1, "Hosting", 100, true, "t1"⟩,
       ⟨2, 1, "Old Plan", 50, false, "t2"⟩], 2, 3⟩ := by decide

theorem upsert_committed_services (cid : Option Nat)
    (name status notes now : String) (db : DB) :
    (applyOp (Op.upsert cid name status notes now) db).services =
      db.services := by
  cases cid with
  | none =>
      simp only [applyOp, upsert_client]
      by_cases h : validStatus status = true
      · rw [if_pos h]
      · rw [if_neg h]
  | some k =>
      simp only [applyOp, upsert_client]
      by_cases h : ((db.clients.any fun c => c.id == k) && !validStatus status) = true
      · rw [if_pos h]
      · rw [if_neg h]

theorem applyEdit_ok_costs {db db' : DB} {e : ServiceEdit}
    (h : applyEdit db e = Except.ok db') (hn : costsNonneg db) :
    costsNonneg db' := by
  unfold applyEdit at h
  by_cases hc : ((db.services.any fun s => s.id == e.id) &&
      decide (e.monthly_cost < 0)) = true
  · rw [if_pos hc] at h; cases h
  · rw [if_neg hc] at h
    cases h
    intro s hs
    simp only [List.mem_map] at hs
    obtain ⟨s0, hs0, rfl⟩ := hs
    by_cases hid : (s0.id == e.id) = true
    · rw [if_pos hid]
      have hany : (db.services.any fun s => s.id == e.id) = true :=
        List.any_eq_true.mpr ⟨s0, hs0, hid⟩
      have hcost : ¬ e.monthly_cost < 0 := by
        simpa [hany] using hc
      exact le_of_not_lt hcost
    · rw [if_neg hid]
      exact hn s0 hs0

theorem applyEdit_ok_clients {db db' : DB} {e : ServiceEdit}
    (h : applyEdit db e = Except.ok db') : db'.clients = db.clients := by
  unfold applyEdit at h
  by_cases hc : ((db.services.any fun s => s.id == e.id) &&
      decide (e.monthly_cost < 0)) = true
  · rw [if_pos hc] at h; cases h
  · rw [if_neg hc] at h; cases h; rfl

theorem runEdits_ok_costs : ∀ (es : List ServiceEdit) (db db' : DB),
    runEdits db es = Except.ok db' → costsNonneg db → costsNonneg db'
  | [], db, db', h, hn => by
      unfold runEdits at h; cases h; exact hn
  | e :: rest, db, db', h, hn => by
      unfold runEdits at h
      cases happ : applyEdit db e with
      | error err => rw [happ] at h; cases h
      | ok db1 =>
          rw [happ] at h
          exact runEdits_ok_costs rest db1 db' h (applyEdit_ok_costs happ hn)

theorem runEdits_ok_clients : ∀ (es : List ServiceEdit) (db db' : DB),
    runEdits db es = Except.ok db' → db'.clients = db.clients
  | [], db, db', h => by
      unfold runEdits at h; cases h; rfl
  | e :: rest, db, db', h => by
      unfold runEdits at h
      cases happ : applyEdit db e with
      | error err => rw [happ] at h; cases h
      | ok db1 =>
          rw [happ] at h
          rw [runEdits_ok_clients rest db1 db' h]
          exact applyEdit_ok_clients happ

theorem bulk_committed_costs (es : List ServiceEdit) (db : DB)
    (hn : costsNonneg db) : costsNonneg (bulk_committed es db) := by
  unfold bulk_committed
  cases h : update_services_bulk es db with
  | ok db' => exact runEdits_ok_costs es db db' h hn
  | error e => exact hn

theorem bulk_committed_clients (es : List ServiceEdit) (db : DB) :
    (bulk_committed es db).clients = db.clients := by
  unfold bulk_committed
  cases h : update_services_bulk es db with
  | ok db' => exact runEdits_ok_clients es db db' h
  | error e => rfl

theorem add_service_committed_costs (cid : Nat) (sname : String)
    (cost : Rat) (act : Bool) (now : String) (db : DB)
    (hn : costsNonneg db) :
    costsNonneg (applyOp (Op.addSvc cid sname cost act now) db) := by
  simp only [applyOp, add_service]
  by_cases h1 : decide (cost < 0) = true
  · rw [if_pos h1]; exact hn
  · rw [if_neg h1]
    by_cases h2 : (!(db.clients.any fun c => c.id == cid)) = true
    · rw [if_pos h2]; exact hn
    · rw [if_neg h2]
      intro s hs
      simp only [List.mem_append, List.mem_singleton] at hs
      rcases hs with hs | rfl
      · exact hn s hs
      · have : ¬ cost < 0 := by simpa using h1
        exact le_of_not_lt this

theorem add_service_committed_clients (cid : Nat) (sname : String)
    (cost : Rat) (act : Bool) (now : String) (db : DB) :
    (applyOp (Op.addSvc cid sname cost act now) db).clients = db.clients := by
  simp only [applyOp, add_service]
  by_cases h1 : decide (cost < 0) = true
  · rw [if_pos h1]
  · rw [if_neg h1]
    by_cases h2 : (!(db.clients.any fun c => c.id == cid)) = true
    · rw [if_pos h2]
    · rw [if_neg h2]

theorem delete_client_costs (cid : Nat) (db : DB) (hn : costsNonneg db) :
    costsNonneg (delete_client cid db) := by
  unfold delete_client
  split
  · intro s hs
    exact hn s (List.mem_of_mem_filter hs)
  · exact hn

theorem delete_service_costs (sid : Nat) (db : DB) (hn : costsNonneg db) :
    costsNonneg (delete_service sid db) := by
  unfold delete_service
  intro s hs
  exact hn s (List.mem_of_mem_filter hs)

theorem applyOp_costs (op : Op) (db : DB) (hn : costsNonneg db) :
    costsNonneg (applyOp op db) := by
  cases op with
  | upsert cid n s t now =>
      intro x hx
      rw [upsert_committed_services] at hx
      exact hn x hx
  | delClient cid => exact delete_client_costs cid db hn
  | addSvc cid n c a now => exact add_service_committed_costs cid n c a now db hn
  | bulk es => exact bulk_committed_costs es db hn
  | delSvc sid => exact delete_service_costs sid db hn

theorem reachable_costs {db : DB} (h : Reachable db) : costsNonneg db := by
  induction h with
  | init => intro s hs; cases hs
  | step op _ ih => exact applyOp_costs _ _ ih

theorem validStatus_iff (s : String) :
    validStatus s = true ↔
      s = "Active" ∨ s = "Inactive" ∨ s = "Prospect" := by
  simp [validStatus, or_assoc]

theorem upsert_committed_statuses (cid : Option Nat)
    (name status notes now : String) (db : DB) (hv : statusesValid db) :
    statusesValid (applyOp (Op.upsert cid name status notes now) db) := by
  cases cid with
  | none =>
      simp only [applyOp, upsert_client]
      by_cases h : validStatus status = true
      · rw [if_pos h]
        intro c hc
        simp only [List.mem_append, List.mem_singleton] at hc
        rcases hc with hc | rfl
        · exact hv c hc
        · exact h
      · rw [if_neg h]; exact hv
  | some k =>
      simp only [applyOp, upsert_client]
      by_cases h : ((db.clients.any fun c => c.id == k) && !validStatus status) = true
      · rw [if_pos h]; exact hv
      · rw [if_neg h]
        intro c hc
        simp only [List.mem_map] at hc
        obtain ⟨c0, hc0, rfl⟩ := hc
        by_cases hid : (c0.id == k) = true
        · rw [if_pos hid]
          have hany : (db.clients.any fun c => c.id == k) = true :=
            List.any_eq_true.mpr ⟨c0, hc0, hid⟩
          simpa [hany] using h
        · rw [if_neg hid]
          exact hv c0 hc0

theorem delete_client_statuses (cid : Nat) (db : DB)
    (hv : statusesValid db) : statusesValid (delete_client cid db) := by
  unfold delete_client
  split
  · intro c hc
    exact hv c (List.mem_of_mem_filter hc)
  · exact hv

theorem applyOp_statuses (op : Op) (db : DB) (hv : statusesValid db) :
    statusesValid (applyOp op db) := by
  cases op with
  | upsert cid n s t now => exact upsert_committed_statuses cid n s t now db hv
  | delClient cid => exact delete_client_statuses cid db hv
  | addSvc cid n c a now =>
      intro x hx
      rw [add_service_committed_clients] at hx
      exact hv x hx
  | bulk es =>
      intro x hx
      simp only [applyOp] at hx
      rw [bulk_committed_clients] at hx
      exact hv x hx
  | delSvc sid =>
      intro x hx
      exact hv x hx

theorem reachable_statuses {db : DB} (h : Reachable db) :
    statusesValid db := by
  induction h with
  | init => intro c hc; cases hc
  | step op _ ih => exact applyOp_statuses _ _ ih

theorem sum_active_filter (servs : List Service) (cid : Nat) :
    ((servs.filter (fun s => s.client_id == cid)).map
      (fun s => if s.is_active then s.monthly_cost else 0)).sum =
    ((servs.filter (fun s => s.client_id == cid && s.is_active)).map
      Service.monthly_cost).sum := by
  induction servs with
  | nil => rfl
  | cons s rest ih =>
      by_cases h1 : s.client_id = cid
      · by_cases h2 : s.is_active = true
        · simp [List.filter_cons, h1, h2, ih]
        · simp only [Bool.not_eq_true] at h2
          simp [List.filter_cons, h1, h2, ih]
      · simp [List.filter_cons, h1, ih]

theorem breakdown_perm (db : DB) :
    (client_monthly_revenue_breakdown db).Perm
      (db.clients.map (rowFor db.services)) :=
  List.perm_insertionSort breakdownLE _

theorem mem_breakdown_iff (db : DB) (r : BreakdownRow) :
    r ∈ client_monthly_revenue_breakdown db ↔
      ∃ c ∈ db.clients, rowFor db.services c = r := by
  rw [(breakdown_perm db).mem_iff, List.mem_map]

/-- Claim C1: for every database state and every client C in it,
`client_monthly_revenue_breakdown` returns exactly one row for C, and
that row's `monthly_revenue` is the sum of `monthly_cost` over exactly
the services whose `client_id` is C's id and whose `is_active` flag is
true, and is 0 when C has no active services.  The Nodup hypothesis is
the `id INTEGER PRIMARY KEY` uniqueness constraint of the schema. -/
theorem breakdown_one_row_per_client (db : DB) (c : Client)
    (hc : c ∈ db.clients) (hnd : (db.clients.map Client.id).Nodup) :
    ((client_monthly_revenue_breakdown db).filter
        (fun r => r.client_id == c.id)).length = 1 ∧
    ∀ r ∈ client_monthly_revenue_breakdown db, r.client_id = c.id →
      r.monthly_revenue =
        ((db.services.filter (fun s => s.client_id == c.id && s.is_active)).map
          Service.monthly_cost).sum ∧
      (db.services.filter (fun s => s.client_id == c.id && s.is_active) = [] →
        r.monthly_revenue = 0) := by
  constructor
  · have hperm := (breakdown_perm db).filter (fun r => r.client_id == c.id)
    rw [hperm.length_eq, List.filter_map, List.length_map]
    have hcomp : ((fun r => r.client_id == c.id) ∘ rowFor db.services) =
        (fun c' => c'.id == c.id) := rfl
    rw [hcomp, ← List.countP_eq_length_filter]
    have hcount : List.countP (fun c' => c'.id == c.id) db.clients =
        List.count c.id (db.clients.map Client.id) := by
      rw [List.count_eq_countP, List.countP_map]
      rfl
    rw [hcount]
    exact List.count_eq_one_of_mem hnd (List.mem_map_of_mem Client.id hc)
  · intro r hr hrid
    rw [mem_breakdown_iff] at hr
    obtain ⟨c', hc', rfl⟩ := hr
    have hcid : c'.id = c.id := hrid
    have hrev : (rowFor db.services c').monthly_revenue =
        ((db.services.filter (fun s => s.client_id == c.id && s.is_active)).map
          Service.monthly_cost).sum := by
      show ((db.services.filter (fun s => s.client_id == c'.id)).map
        (fun s => if s.is_active then s.monthly_cost else 0)).sum = _
      rw [hcid]
      exact sum_active_filter db.services c.id
    refine ⟨hrev, fun hnone => ?_⟩
    rw [hrev, hnone]
    rfl

/-- Witness for claim C1 at the concrete reachable state `dbAcme`. -/
theorem breakdown_one_row_per_client_witness :
    ((⟨1, "Acme", "Active", "", "t0"⟩ : Client) ∈ dbAcme.clients ∧
      (dbAcme.clients.map Client.id).Nodup) ∧
    (((client_monthly_revenue_breakdown dbAcme).filter
        (fun r => r.client_id ==
          (⟨1, "Acme", "Active", "", "t0"⟩ : Client).id)).length = 1 ∧
    ∀ r ∈ client_monthly_revenue_breakdown dbAcme,
      r.client_id = (⟨1, "Acme", "Active", "", "t0"⟩ : Client).id →
      r.monthly_revenue =
        ((dbAcme.services.filter (fun s =>
          s.client_id == (⟨1, "Acme", "Active", "", "t0"⟩ : Client).id &&
            s.is_active)).map Service.monthly_cost).sum ∧
      (dbAcme.services.filter (fun s =>
          s.client_id == (⟨1, "Acme", "Active", "", "t0"⟩ : Client).id &&
            s.is_active) = [] →
        r.monthly_revenue = 0)) :=
  ⟨⟨by decide, by decide⟩,
    breakdown_one_row_per_client dbAcme ⟨1, "Acme", "Active", "", "t0"⟩
      (by decide) (by decide)⟩

/-- Claim C4: `totals_for_dashboard` returns
`totalPotential = activeMRR + prospectMRR`, where activeMRR,
prospectMRR and inactiveMRR are the sums of `monthly_revenue` over the
breakdown rows with status Active, Prospect and Inactive respectively;
`inactiveMRR` is never part of `totalPotential`. -/
theorem totals_total_potential (db : DB) :
    (totals_for_dashboard db).2.2.1 =
      (totals_for_dashboard db).1 + (totals_for_dashboard db).2.1 ∧
    (totals_for_dashboard db).1 =
      (((client_monthly_revenue_breakdown db).filter
        (fun r => r.status == "Active")).map BreakdownRow.monthly_revenue).sum ∧
    (totals_for_dashboard db).2.1 =
      (((client_monthly_revenue_breakdown db).filter
        (fun r => r.status == "Prospect")).map BreakdownRow.monthly_revenue).sum ∧
    (totals_for_dashboard db).2.2.2 =
      (((client_monthly_revenue_breakdown db).filter
        (fun r => r.status == "Inactive")).map BreakdownRow.monthly_revenue).sum :=
  ⟨rfl, rfl, rfl, rfl⟩

theorem sum_three_filters (rows : List BreakdownRow)
    (h : ∀ r ∈ rows,
      r.status = "Active" ∨ r.status = "Prospect" ∨ r.status = "Inactive") :
    ((rows.filter (fun r => r.status == "Active")).map
        BreakdownRow.monthly_revenue).sum +
      ((rows.filter (fun r => r.status == "Prospect")).map
        BreakdownRow.monthly_revenue).sum +
      ((rows.filter (fun r => r.status == "Inactive")).map
        BreakdownRow.monthly_revenue).sum =
      (rows.map BreakdownRow.monthly_revenue).sum := by
  induction rows with
  | nil => simp
  | cons r rest ih =>
      have hrest : ∀ x ∈ rest,
          x.status = "Active" ∨ x.status = "Prospect" ∨ x.status = "Inactive" :=
        fun x hx => h x (List.mem_cons_of_mem r hx)
      have ihr := ih hrest
      rw [List.filter_cons, List.filter_cons, List.filter_cons]
      rcases h r (List.mem_cons_self r rest) with h1 | h1 | h1
      · rw [h1]
        rw [if_pos (by decide), if_neg (by decide), if_neg (by decide)]
        simp only [List.map_cons, List.sum_cons]
        rw [← ihr]; ring
      · rw [h1]
        rw [if_neg (by decide), if_pos (by decide), if_neg (by decide)]
        simp only [List.map_cons, List.sum_cons]
        rw [← ihr]; ring
      · rw [h1]
        rw [if_neg (by decide), if_neg (by decide), if_pos (by decide)]
        simp only [List.map_cons, List.sum_cons]
        rw [← ihr]; ring

/-- Claim C10: activeMRR + prospectMRR + inactiveMRR equals the sum of
`monthly_revenue` over all rows of the breakdown: every client's
status is one of the three enumerated values, so the three partitions
cover every breakdown row exactly once. -/
theorem totals_partition_complete (db : DB) (hv : statusesValid db) :
    (totals_for_dashboard db).1 + (totals_for_dashboard db).2.1 +
      (totals_for_dashboard db).2.2.2 =
      ((client_monthly_revenue_breakdown db).map
        BreakdownRow.monthly_revenue).sum := by
  have hrows : ∀ r ∈ client_monthly_revenue_breakdown db,
      r.status = "Active" ∨ r.status = "Prospect" ∨ r.status = "Inactive" := by
    intro r hr
    rw [mem_breakdown_iff] at hr
    obtain ⟨c, hc, rfl⟩ := hr
    have hval := (validStatus_iff c.status).mp (hv c hc)
    show c.status = "Active" ∨ c.status = "Prospect" ∨ c.status = "Inactive"
    tauto
  exact sum_three_filters _ hrows

/-- Witness for claim C10 at the concrete reachable state `dbAcme`. -/
theorem totals_partition_complete_witness :
    statusesValid dbAcme ∧
    ((totals_for_dashboard dbAcme).1 + (totals_for_dashboard dbAcme).2.1 +
      (totals_for_dashboard dbAcme).2.2.2 =
      ((client_monthly_revenue_breakdown dbAcme).map
        BreakdownRow.monthly_revenue).sum) :=
  ⟨by unfold statusesValid; decide,
    totals_partition_complete dbAcme (by unfold statusesValid; decide)⟩

/-- Claim C5: `delete_client id` removes the client row with that id
and exactly the service rows whose `client_id` equals that id (the
storage-layer cascade), and no other row of either table. -/
theorem delete_client_cascade_exact (db : DB) (cid : Nat)
    (hex : ∃ c ∈ db.clients, c.id = cid) :
    (∀ c : Client, c ∈ (delete_client cid db).clients ↔
      c ∈ db.clients ∧ c.id ≠ cid) ∧
    (∀ s : Service, s ∈ (delete_client cid db).services ↔
      s ∈ db.services ∧ s.client_id ≠ cid) := by
  obtain ⟨c0, hc0, hc0id⟩ := hex
  have hany : (db.clients.any fun c => c.id == cid) = true :=
    List.any_eq_true.mpr ⟨c0, hc0, by simp [hc0id]⟩
  unfold delete_client
  rw [if_pos hany]
  constructor
  · intro c
    simp [List.mem_filter]
  · intro s
    simp [List.mem_filter]

/-- Witness for claim C5 at the concrete reachable state `dbAcme`. -/
theorem delete_client_cascade_exact_witness :
    (∃ c ∈ dbAcme.clients, c.id = 1) ∧
    ((∀ c : Client, c ∈ (delete_client 1 dbAcme).clients ↔
        c ∈ dbAcme.clients ∧ c.id ≠ 1) ∧
     (∀ s : Service, s ∈ (delete_client 1 dbAcme).services ↔
        s ∈ dbAcme.services ∧ s.client_id ≠ 1)) :=
  ⟨by decide, delete_client_cascade_exact dbAcme 1 (by decide)⟩

theorem upsert_update_no_match (db : DB) (cid : Nat)
    (name status notes now : String)
    (hany : (db.clients.any fun c => c.id == cid) = false) :
    upsert_client (some cid) name status notes now db = Except.ok db := by
  have hmap : db.clients.map (fun c =>
      if c.id == cid then
        ({ c with name := pyStrip name, status := status,
                  notes := pyStrip notes } : Client)
      else c) = db.clients := by
    have hid : ∀ c ∈ db.clients, (if c.id == cid then
        ({ c with name := pyStrip name, status := status,
                  notes := pyStrip notes } : Client)
      else c) = id c := by
      intro c hcm
      have hne : (c.id == cid) = false := by
        simpa using List.any_eq_false.mp hany c hcm
      simp [hne]
    rw [List.map_congr_left hid, List.map_id]
  simp only [upsert_client, hany, Bool.false_and]
  rw [if_neg (by simp), hmap]

/-- Claim C8: an update or delete referencing an id present in neither
table affects zero rows, raises no error, and leaves the database
unchanged: `upsert_client` with an absent id, `delete_client` and
`delete_service` are all silent no-ops. -/
theorem missing_id_ops_are_noops (db : DB) (cid : Nat)
    (name status notes now : String)
    (hc : ∀ c ∈ db.clients, c.id ≠ cid)
    (hs : ∀ s ∈ db.services, s.id ≠ cid) :
    upsert_client (some cid) name status notes now db = Except.ok db ∧
    delete_client cid db = db ∧
    delete_service cid db = db := by
  have hany : (db.clients.any fun c => c.id == cid) = false := by
    rw [Bool.eq_false_iff]
    intro habs
    obtain ⟨c, hcm, hcb⟩ := List.any_eq_true.mp habs
    exact hc c hcm (by simpa using hcb)
  refine ⟨?_, ?_, ?_⟩
  · have hmap : db.clients.map (fun c =>
        if c.id == cid then
          { c with name := pyStrip name, status := status,
                   notes := pyStrip notes }
        else c) = db.clients := by
      have hid : ∀ c ∈ db.clients, (if c.id == cid then
          ({ c with name := pyStrip name, status := status,
                    notes := pyStrip notes } : Client)
        else c) = id c := by
        intro c hcm
        have hne : (c.id == cid) = false := by simp [hc c hcm]
        simp [hne]
      rw [List.map_congr_left hid, List.map_id]
    simp only [upsert_client, hany, Bool.false_and]
    rw [if_neg (by simp), hmap]
  · simp [delete_client, hany]
  · unfold delete_service
    have hfil : db.services.filter (fun s => !(s.id == cid)) = db.services := by
      rw [List.filter_eq_self]
      intro s hsm
      simp [hs s hsm]
    rw [hfil]

/-- Witness for claim C8 at the concrete reachable state `dbAcme` and
the absent id 99. -/
theorem missing_id_ops_are_noops_witness :
    ((∀ c ∈ dbAcme.clients, c.id ≠ 99) ∧
      (∀ s ∈ dbAcme.services, s.id ≠ 99)) ∧
    (upsert_client (some 99) "New" "Active" "" "t9" dbAcme =
        Except.ok dbAcme ∧
      delete_client 99 dbAcme = dbAcme ∧
      delete_service 99 dbAcme = dbAcme) :=
  ⟨⟨by decide, by decide⟩,
    missing_id_ops_are_noops dbAcme 99 "New" "Active" "" "t9"
      (by decide) (by decide)⟩

/-- Claim C9: `upsert_client` with an existing client's id rewrites
only the `name`, `status` and `notes` fields of the matching row; the
row's `id` and `created_at`, the whole services table, and every other
client row are unchanged (shown position by position). -/
theorem upsert_existing_updates_fields_only (db : DB) (cid : Nat)
    (name status notes now : String) (hv : validStatus status = true) :
    ∃ db', upsert_client (some cid) name status notes now db =
        Except.ok db' ∧
      db'.services = db.services ∧
      db'.nextClientId = db.nextClientId ∧
      db'.nextServiceId = db.nextServiceId ∧
      db'.clients.length = db.clients.length ∧
      ∀ i, ∀ hi : i < db.clients.length, ∀ hi' : i < db'.clients.length,
        (db'.clients[i].id = db.clients[i].id ∧
         db'.clients[i].created_at = db.clients[i].created_at) ∧
        (db.clients[i].id = cid →
          db'.clients[i].name = pyStrip name ∧
          db'.clients[i].status = status ∧
          db'.clients[i].notes = pyStrip notes) ∧
        (db.clients[i].id ≠ cid → db'.clients[i] = db.clients[i]) := by
  have hcond : ((db.clients.any fun c => c.id == cid) &&
      !validStatus status) = false := by
    rw [hv]
    simp
  refine ⟨{ db with clients := db.clients.map (fun c =>
      if c.id == cid then
        { c with name := pyStrip name, status := status,
                 notes := pyStrip notes }
      else c) }, ?_, rfl, rfl, rfl, List.length_map _ _, ?_⟩
  · simp only [upsert_client]
    rw [if_neg (by simp [hcond])]
  · intro i hi hi'
    simp only [List.getElem_map]
    by_cases hid : db.clients[i].id = cid
    · have hbeq : (db.clients[i].id == cid) = true := by simp [hid]
      rw [if_pos hbeq]
      exact ⟨⟨rfl, rfl⟩, fun _ => ⟨rfl, rfl, rfl⟩, fun hne => absurd hid hne⟩
    · have hbeq : (db.clients[i].id == cid) = false := by simp [hid]
      rw [if_neg (by simp [hbeq])]
      exact ⟨⟨rfl, rfl⟩, fun h => absurd h hid, fun _ => rfl⟩

/-- Witness for claim C9 at the concrete reachable state `dbAcme`. -/
theorem upsert_existing_updates_fields_only_witness :
    validStatus "Inactive" = true ∧
    (∃ db', upsert_client (some 1) " Acme Corp " "Inactive" " vip " "t5"
        dbAcme = Except.ok db' ∧
      db'.services = dbAcme.services ∧
      db'.nextClientId = dbAcme.nextClientId ∧
      db'.nextServiceId = dbAcme.nextServiceId ∧
      db'.clients.length = dbAcme.clients.length ∧
      ∀ i, ∀ hi : i < dbAcme.clients.length, ∀ hi' : i < db'.clients.length,
        (db'.clients[i].id = dbAcme.clients[i].id ∧
         db'.clients[i].created_at = dbAcme.clients[i].created_at) ∧
        (dbAcme.clients[i].id = 1 →
          db'.clients[i].name = pyStrip " Acme Corp " ∧
          db'.clients[i].status = "Inactive" ∧
          db'.clients[i].notes = pyStrip " vip ") ∧
        (dbAcme.clients[i].id ≠ 1 → db'.clients[i] = dbAcme.clients[i])) :=
  ⟨by decide, upsert_existing_updates_fields_only dbAcme 1 " Acme Corp "
    "Inactive" " vip " "t5" (by decide)⟩

/-- Claim C6: every service row in every reachable database state has
monthly_cost ≥ 0: `add_service` with a negative cost is rejected by
the CHECK constraint and commits nothing, a bulk-update row with a
negative cost matching an existing service likewise fails the whole
statement, and every operation preserves the invariant. -/
theorem monthly_cost_nonneg_invariant (db : DB) (h : Reachable db)
    (cid : Nat) (sname : String) (cost : Rat) (act : Bool) (now : String)
    (hneg : cost < 0) :
    costsNonneg db ∧
    add_service cid sname cost act now db =
      Except.error StorageError.constraintViolation ∧
    applyOp (Op.addSvc cid sname cost act now) db = db ∧
    (∀ op : Op, costsNonneg (applyOp op db)) ∧
    ∀ (e : ServiceEdit) (es : List ServiceEdit), e.monthly_cost < 0 →
      (db.services.any fun s => s.id == e.id) = true →
      update_services_bulk (e :: es) db =
        Except.error StorageError.constraintViolation ∧
      bulk_committed (e :: es) db = db := by
  have hc := reachable_costs h
  have herr : add_service cid sname cost act now db =
      Except.error StorageError.constraintViolation := by
    unfold add_service
    rw [if_pos (by simpa using hneg)]
  refine ⟨hc, herr, ?_, fun op => applyOp_costs op db hc, ?_⟩
  · simp only [applyOp, herr]
  · intro e es hneg2 hmatch
    have happ : applyEdit db e =
        Except.error StorageError.constraintViolation := by
      unfold applyEdit
      rw [if_pos (by simp [hmatch, hneg2])]
    have hrun : update_services_bulk (e :: es) db =
        Except.error StorageError.constraintViolation := by
      unfold update_services_bulk runEdits
      rw [happ]
    refine ⟨hrun, ?_⟩
    unfold bulk_committed
    rw [hrun]

/-- Witness for claim C6 at the concrete reachable state `dbAcme` and
the negative cost -5 of spec §8. -/
theorem monthly_cost_nonneg_invariant_witness :
    ((-5 : Rat) < 0) ∧
    (costsNonneg dbAcme ∧
     add_service 1 "Ads" (-5) true "t7" dbAcme =
       Except.error StorageError.constraintViolation ∧
     applyOp (Op.addSvc 1 "Ads" (-5) true "t7") dbAcme = dbAcme ∧
     (∀ op : Op, costsNonneg (applyOp op dbAcme)) ∧
     ∀ (e : ServiceEdit) (es : List ServiceEdit), e.monthly_cost < 0 →
       (dbAcme.services.any fun s => s.id == e.id) = true →
       update_services_bulk (e :: es) dbAcme =
         Except.error StorageError.constraintViolation ∧
       bulk_committed (e :: es) dbAcme = dbAcme) :=
  ⟨by decide, monthly_cost_nonneg_invariant dbAcme dbAcme_reachable 1 "Ads"
    (-5) true "t7" (by decide)⟩

/-- Counterexample to claim C7 as stated: an UPDATE whose id matches no
client row is not rejected even when the status lies outside the
enumeration — the CHECK constraint is evaluated only on rows actually
written, so the statement succeeds silently, affecting zero rows. -/
theorem upsert_invalid_status_missing_id_not_rejected :
    validStatus "Bogus" = false ∧
    emptyDB.clients = [] ∧
    upsert_client (some 1) "X" "Bogus" "" "t" emptyDB =
      Except.ok emptyDB := by
  decide

/-- Claim C7 (amended): an INSERT with a status outside the enumeration
{Active, Inactive, Prospect} is rejected with a storage error and
writes no row; an UPDATE with an invalid status is rejected (modifying
no row) whenever its id matches an existing client, while an UPDATE
matching no row succeeds silently and changes nothing; and every
client row in every reachable state carries one of the three
statuses. -/
theorem client_status_enum_enforced (db : DB) (h : Reachable db)
    (name status notes now : String) (hbad : validStatus status = false)
    (cid : Nat) :
    statusesValid db ∧
    upsert_client none name status notes now db =
      Except.error StorageError.constraintViolation ∧
    ((db.clients.any fun c => c.id == cid) = true →
      upsert_client (some cid) name status notes now db =
        Except.error StorageError.constraintViolation) ∧
    ((db.clients.any fun c => c.id == cid) = false →
      upsert_client (some cid) name status notes now db =
        Except.ok db) := by
  refine ⟨reachable_statuses h, ?_, ?_, ?_⟩
  · simp only [upsert_client]
    rw [if_neg (by simp [hbad])]
  · intro hany
    simp only [upsert_client]
    rw [if_pos (by simp [hany, hbad])]
  · intro hany
    exact upsert_update_no_match db cid name status notes now hany

/-- Witness for the amended claim C7 at the concrete reachable state
`dbAcme` and the invalid status "Bogus". -/
theorem client_status_enum_enforced_witness :
    validStatus "Bogus" = false ∧
    (statusesValid dbAcme ∧
     upsert_client none "X" "Bogus" "" "t8" dbAcme =
       Except.error StorageError.constraintViolation ∧
     ((dbAcme.clients.any fun c => c.id == 1) = true →
       upsert_client (some 1) "X" "Bogus" "" "t8" dbAcme =
         Except.error StorageError.constraintViolation) ∧
     ((dbAcme.clients.any fun c => c.id == 1) = false →
       upsert_client (some 1) "X" "Bogus" "" "t8" dbAcme =
         Except.ok dbAcme)) :=
  ⟨by decide, client_status_enum_enforced dbAcme dbAcme_reachable "X"
    "Bogus" "" "t8" (by decide) 1⟩

/-- Counterexample to claim C2 as stated: `upsert_client` itself
performs no name validation — called with a name that strips to empty
it reaches storage and inserts a client row with an empty name (the
`name TEXT NOT NULL` column accepts the empty string). -/
theorem upsert_empty_name_writes_row :
    pyStrip "   " = "" ∧
    upsert_client none "   " "Active" "note" "t0" emptyDB =
      Except.ok ⟨[⟨1, "", "Active", "note", "t0"⟩], [], 2, 1⟩ := by
  decide

/-- Claim C2 (amended): the empty-name rejection happens in the UI form
handler, which reports an error and never calls `upsert_client`, so
through the form no write is attempted (with or without an id);
`upsert_client` itself does not validate the name, and called directly
with a name that strips to empty (and a valid status) it inserts a row
whose name is the empty string. -/
theorem empty_name_rejected_by_form_not_storage (sid : Option Nat)
    (name status notes now : String) (db : DB)
    (he : pyStrip name = "") (hv : validStatus status = true) :
    client_form_submit sid name status notes now db =
      FormResult.rejected ∧
    upsert_client none name status notes now db =
      Except.ok { db with
        clients := db.clients ++
          [⟨db.nextClientId, "", status, pyStrip notes, now⟩],
        nextClientId := db.nextClientId + 1 } := by
  constructor
  · unfold client_form_submit
    rw [if_pos (by simp [he])]
  · simp only [upsert_client, he]
    rw [if_pos hv]

/-- Witness for the amended claim C2 at the concrete reachable state
`dbAcme` and the all-whitespace name. -/
theorem empty_name_rejected_by_form_not_storage_witness :
    (pyStrip "   " = "" ∧ validStatus "Prospect" = true) ∧
    (client_form_submit none "   " "Prospect" " n " "t3" dbAcme =
        FormResult.rejected ∧
      upsert_client none "   " "Prospect" " n " "t3" dbAcme =
        Except.ok { dbAcme with
          clients := dbAcme.clients ++
            [⟨dbAcme.nextClientId, "", "Prospect", pyStrip " n ", "t3"⟩],
          nextClientId := dbAcme.nextClientId + 1 }) :=
  ⟨⟨by decide, by decide⟩,
    empty_name_rejected_by_form_not_storage none "   " "Prospect" " n "
      "t3" dbAcme (by decide) (by decide)⟩

/-- Counterexample to claim C3 as stated: in a two-row batch whose
first row is a valid update (cost 100 to 200) and whose second row
violates the cost CHECK, the first row's statement on its own succeeds
on the connection, yet the failing batch commits nothing: the
persisted state keeps the original costs [100, 50], whereas the claim
requires the first row's update to be left committed. -/
theorem bulk_failure_discards_earlier_rows :
    applyEdit dbAcme ⟨1, "Hosting", 200, true⟩ =
      Except.ok { dbAcme with services :=
        [⟨1, 1, "Hosting", 200, true, "t1"⟩,
         ⟨2, 1, "Old Plan", 50, false, "t2"⟩] } ∧
    update_services_bulk
      [⟨1, "Hosting", 200, true⟩, ⟨2, "Old Plan", -5, false⟩] dbAcme =
      Except.error StorageError.constraintViolation ∧
    bulk_committed
      [⟨1, "Hosting", 200, true⟩, ⟨2, "Old Plan", -5, false⟩] dbAcme =
      dbAcme ∧
    (bulk_committed
      [⟨1, "Hosting", 200, true⟩, ⟨2, "Old Plan", -5, false⟩]
      dbAcme).services.map Service.monthly_cost = [100, 50] := by
  decide

/-- Claim C3 (amended): rows are processed one at a time on a single
connection, but with one `conn.commit()` after the whole loop the
batch is a single transaction: when a later row's statement fails, the
exception propagates before the commit, the open transaction is rolled
back, and no row's update is committed — earlier successful rows
included, later rows unattempted. -/
theorem bulk_batch_aborts_as_unit (db db1 : DB) (e : ServiceEdit)
    (es : List ServiceEdit) (err : StorageError)
    (h1 : applyEdit db e = Except.ok db1)
    (h2 : runEdits db1 es = Except.error err) :
    update_services_bulk (e :: es) db = Except.error err ∧
    bulk_committed (e :: es) db = db := by
  have hrun : update_services_bulk (e :: es) db = Except.error err := by
    unfold update_services_bulk runEdits
    rw [h1]
    exact h2
  refine ⟨hrun, ?_⟩
  unfold bulk_committed
  rw [hrun]

/-- Witness for the amended claim C3 at the concrete reachable state
`dbAcme`: the first row's update succeeds on the connection, the second
row fails, and the committed state is unchanged. -/
theorem bulk_batch_aborts_as_unit_witness :
    (applyEdit dbAcme ⟨1, "Hosting", 200, true⟩ =
        Except.ok { dbAcme with services :=
          [⟨1, 1, "Hosting", 200, true, "t1"⟩,
           ⟨2, 1, "Old Plan", 50, false, "t2"⟩] } ∧
      runEdits { dbAcme with services :=
          [⟨1, 1, "Hosting", 200, true, "t1"⟩,
           ⟨2, 1, "Old Plan", 50, false, "t2"⟩] }
        [⟨2, "Old Plan", -5, false⟩] =
        Except.error StorageError.constraintViolation) ∧
    (update_services_bulk
        [⟨1, "Hosting", 200, true⟩, ⟨2, "Old Plan", -5, false⟩] dbAcme =
        Except.error StorageError.constraintViolation ∧
      bulk_committed
        [⟨1, "Hosting", 200, true⟩, ⟨2, "Old Plan", -5, false⟩] dbAcme =
        dbAcme) :=
  ⟨⟨by decide, by decide⟩,
    bulk_batch_aborts_as_unit dbAcme
      { dbAcme with services :=
          [⟨1, 1, "Hosting", 200, true, "t1"⟩,
           ⟨2, 1, "Old Plan", 50, false, "t2"⟩] }
      ⟨1, "Hosting", 200, true⟩ [⟨2, "Old Plan", -5, false⟩]
      StorageError.constraintViolation (by decide) (by decide)⟩
